import Mathlib

/-!
Verification of the SmartShopper cross-site product identity resolution
engine.  The definitions below are shallow embeddings of the JavaScript
source: `server/routes/search-crosssite.js` (candidate aggregation,
per-site grouping, availability thresholding), `server/utils/scraper.js`
(price extraction), `server/phash.js` (perceptual-hash Hamming distance),
and the product matcher whose contract is given by the design document
(`server/matcher.js` itself is not part of the shipped sources, only its
tests and callers are; the corresponding definitions are modelled from the
spec and marked as such).

Numeric conventions: JavaScript numbers are modelled as `ℚ` where the
computation is exact decimal arithmetic (scores, prices), and the one
place where IEEE-754 rounding is observable (`parseInt` of a 64-bit hex
hash in `phash.js`) is modelled exactly by explicit round-to-nearest-even
on `ℕ`.
-/

namespace SmartShopper

/-- Character predicate used throughout: ASCII alphanumeric. -/
def isAlnumChar (c : Char) : Bool := c.isAlpha || c.isDigit

/-- Uppercase ASCII letter test. -/
def isUpperChar (c : Char) : Bool := c.isUpper

/-! ## Scored candidates as consumed by the route

`search-crosssite.js` receives from the matcher a list `allScores` of
scored candidates; the route reads the fields below from each entry
(`candidate.site`, `candidate.score`, and the payload copied into the
response). -/

/-- A scored candidate as read by `search-crosssite.js` from
`result.allScores` (site, score and the payload fields the route copies
into its response). -/
structure Scored where
  site : String
  site_id : String
  title : String
  price_cents : Int
  url : String
  image : String
  rating : Option ℚ
  score : ℚ
  reason : String
deriving Repr, DecidableEq

/-- One step of the `forEach` loop building `siteGroups` in
`search-crosssite.js` lines 318-323: a site's slot is overwritten only
when empty or when the new candidate's score is strictly higher. -/
def siteGroupsStep (m : String → Option Scored) (c : Scored) : String → Option Scored :=
  match m c.site with
  | none => fun s => if s = c.site then some c else m s
  | some b =>
      if c.score > b.score then (fun s => if s = c.site then some c else m s) else m

/-- The `siteGroups` map of `search-crosssite.js`: fold the step over
`allScores` starting from the empty object. -/
def siteGroups (l : List Scored) : String → Option Scored :=
  l.foldl siteGroupsStep (fun _ => none)

/-- First maximum of a list under a rational-valued key: a later element
replaces the current best only when strictly greater, so ties are won by
the earlier element.  This is the shape shared by the matcher's best
selection and by the per-site grouping. -/
def firstMaxBy (f : α → ℚ) : List α → Option α
  | [] => none
  | c :: t =>
      match firstMaxBy f t with
      | none => some c
      | some b => if f b > f c then some b else some c

/-- Left-biased maximum combination on optional scored values. -/
def combineMax (f : α → ℚ) : Option α → Option α → Option α
  | none, r => r
  | some b, none => some b
  | some b, some c => if f c > f b then some c else some b

/-! ## Availability view of the route

`search-crosssite.js` lines 326-360: the fixed site list, the search URL
used for unavailable entries, and the per-site result object with its
`available` flag and `match_quality` tier. -/

/-- The fixed site list of `search-crosssite.js` (`allSites`, also the
`sites` list of `loadCandidates`). -/
def allSites : List String := ["amazon", "flipkart", "myntra", "meesho"]

/-- Hex digit used by the percent-encoder. -/
def hexDigitChar (n : Nat) : Char :=
  (String.toList "0123456789ABCDEF").getD n '0'

/-- JavaScript `encodeURIComponent`, for the ASCII code points that occur
in product queries (non-ASCII code points would be UTF-8 expanded; no
claim depends on them). -/
def encodeURIComponent (s : String) : String :=
  String.mk (s.toList.foldr (fun c acc =>
    if c.isAlphanum || c = '-' || c = '_' || c = '.' || c = '!' || c = '~'
        || c = '*' || c.toNat = 39 || c = '(' || c = ')'
    then c :: acc
    else '%' :: hexDigitChar (c.toNat / 16) :: hexDigitChar (c.toNat % 16) :: acc) [])

/-- The fallback search URL built for unavailable sites
(`https://www.{site}.{site === 'amazon' ? 'in' : 'com'}/search?q=...`). -/
def searchUrlFor (site query : String) : String :=
  "https://www." ++ site ++ (if site = "amazon" then ".in" else ".com")
    ++ "/search?q=" ++ encodeURIComponent query

/-- One entry of the route's `results` array.  Fields absent from a JS
branch are `none`. -/
structure SiteResult where
  site : String
  available : Bool
  site_id : Option String
  title : String
  price_cents : Int
  url : Option String
  image : Option String
  rating : Option ℚ
  score : ℚ
  reason : String
  match_quality : Option String
deriving Repr, DecidableEq

/-- The body of the `.map(targetSite => ...)` in `search-crosssite.js`
lines 329-360: available iff a grouped match exists with score `≥ 0.4`,
with the nested-ternary quality tier. -/
def mkSiteResult (title targetSite : String) (mo : Option Scored) : SiteResult :=
  match mo with
  | some m =>
      if m.score ≥ 2/5 then
        { site := targetSite, available := true, site_id := some m.site_id,
          title := m.title, price_cents := m.price_cents, url := some m.url,
          image := some m.image, rating := m.rating, score := m.score,
          reason := m.reason,
          match_quality := some (if m.score ≥ 4/5 then "excellent"
            else if m.score ≥ 3/5 then "good" else "fair") }
      else
        { site := targetSite, available := false, site_id := none,
          title := "Not Available", price_cents := 0,
          url := some (searchUrlFor targetSite title), image := none,
          rating := none, score := m.score,
          reason := "Low match score - might be different product",
          match_quality := some "none" }
  | none =>
      { site := targetSite, available := false, site_id := none,
        title := "Not Available", price_cents := 0,
        url := some (searchUrlFor targetSite title), image := none,
        rating := none, score := 0,
        reason := "Product not found on this site",
        match_quality := some "none" }

/-- The route's `finalResults`: one entry per known site other than the
source's own. -/
def finalResults (sourceSite title : String) (groups : String → Option Scored) :
    List SiteResult :=
  (allSites.filter (fun s => s ≠ sourceSite)).map
    (fun t => mkSiteResult title t (groups t))

/-! ## Candidate aggregation (`loadCandidates`)

`search-crosssite.js` lines 142-229.  The per-site scrape (an HTTP /
Puppeteer call in the source) is abstracted as a function from site name
to `Except`: `Except.error` models a connector that threw or timed out
(both `scrapeSearchResults` and `searchFlipkartRapidAPI` catch internally
and return `[]`, and `loadCandidates` catches anything else, so an error
contributes nothing).  Each connector is invoked with `maxResults = 3`
and slices its raw results to that limit before returning. -/

/-- A scraper result record as produced by `scraper.js`
(`productName`, `numericPrice`, `url`, `image`, `scrapedAt`, `rating`,
`source`). -/
structure Product where
  productName : String
  numericPrice : Option ℚ
  url : String
  image : Option String
  scrapedAt : String
  rating : Option ℚ
  source : Option String
deriving Repr, DecidableEq

/-- A candidate record in the matcher format built by `loadCandidates`
(scraped entries) or by the mock fallback (`mock := true`). -/
structure Candidate where
  site : String
  site_id : String
  title : String
  price_cents : Int
  url : String
  image : String
  scraped_at : Option String
  rating : Option ℚ
  source : Option String
  model : Option String
  brand : Option String
  mock : Bool
deriving Repr, DecidableEq

/-- JavaScript `Math.round` on a nonnegative rational: round half away
from zero, i.e. `⌊x + 1/2⌋`. -/
def jsRound (x : ℚ) : Int := Int.floor (x + 1/2)

/-- Consume `marker` as a literal prefix, returning the remainder. -/
def stripPre : List Char → List Char → Option (List Char)
  | [], ys => some ys
  | _, [] => none
  | x :: xs, y :: ys => if x = y then stripPre xs ys else none

/-- Leftmost regex match of `marker` followed by a nonempty run of
`good` characters; returns the captured run (JS `url.match(...)[1]`). -/
def scanCapture (marker : List Char) (good : Char → Bool) : List Char → Option (List Char)
  | [] => none
  | c :: rest =>
      match stripPre marker (c :: rest) with
      | some tail =>
          let cap := tail.takeWhile good
          if cap.isEmpty then scanCapture marker good rest else some cap
      | none => scanCapture marker good rest

/-- `extractProductId` of `search-crosssite.js` lines 234-256: per-site
URL patterns for flipkart, myntra and meesho; every other site (amazon
included) falls through to `null`. -/
def extractProductId (url : String) (site : String) : Option String :=
  if url = "" then none
  else if site = "flipkart" then
    (scanCapture (String.toList "/p/") isAlnumChar url.toList).map String.mk
  else if site = "myntra" then
    (scanCapture (String.toList "myntra.com/") Char.isDigit url.toList).map String.mk
  else if site = "meesho" then
    (scanCapture (String.toList "/p/") isAlnumChar url.toList).map String.mk
  else none

/-- Conversion of one scraper result to the matcher candidate format
(`search-crosssite.js` lines 172-186).  `now` is the `Date.now()`
timestamp used when no product id can be extracted from the URL. -/
def convert (site : String) (now : Nat) (p : Product) : Candidate :=
  { site := site,
    site_id := (extractProductId p.url site).getD (site ++ "_" ++ Nat.repr now),
    title := p.productName,
    price_cents := jsRound ((p.numericPrice.getD 0) * 100),
    url := p.url,
    image := p.image.getD "https://via.placeholder.com/300",
    scraped_at := some p.scrapedAt,
    rating := p.rating,
    source := some (p.source.getD "puppeteer"),
    model := none, brand := none, mock := false }

/-- Canonical key of a candidate (`{source}:{sourceLocalId}`). -/
def canonicalKey (c : Candidate) : String := c.site ++ ":" ++ c.site_id

/-- What one site contributes to the aggregation: nothing on a connector
error, otherwise the raw results capped at the per-source limit of 3 and
converted. -/
def siteContribution (fetch : String → Except String (List Product)) (now : Nat)
    (site : String) : List Candidate :=
  match fetch site with
  | Except.error _ => []
  | Except.ok raw => (raw.take 3).map (convert site now)

/-- The scraped candidate list: contributions of every site except the
excluded one, flattened in site-list order. -/
def scrapedCandidates (fetch : String → Except String (List Product))
    (excludeSite : String) (now : Nat) : List Candidate :=
  ((allSites.filter (fun s => s ≠ excludeSite)).map (siteContribution fetch now)).flatten

/-- The mock fallback of `loadCandidates` lines 203-226: one fabricated
candidate per remaining site, with a randomized base price
(`300 + Math.random() * 500`, `rand index` standing for the random draw
of iteration `index`) and a `MOCK_`-prefixed synthetic id. -/
def mockCandidates (query excludeSite : String) (rand : Nat → ℚ) (now : Nat) :
    List Candidate :=
  (allSites.filter (fun s => s ≠ excludeSite)).enum.map (fun pair =>
    let index := pair.1
    let site := pair.2
    let words := String.intercalate " "
      (((query.split (fun c => c.isWhitespace)).filter (fun w => w ≠ "")).take 8)
    let basePrice : ℚ := 300 + rand index * 500
    let variants := [words, words ++ " For Men & Women", words ++ " - Premium Quality"]
    { site := site,
      site_id := "MOCK_" ++ site.toUpper ++ "_" ++ Nat.repr now ++ "_" ++ Nat.repr index,
      title := variants.getD (index % 3) "",
      price_cents := Int.floor (basePrice * 100),
      url := searchUrlFor site query,
      image := "https://via.placeholder.com/300",
      scraped_at := none, rating := none, source := none,
      model := none, brand := none, mock := true })

/-- `loadCandidates`: scrape all non-excluded sites; if the union is
empty, substitute the mock fallback list. -/
def loadCandidates (fetch : String → Except String (List Product))
    (query excludeSite : String) (rand : Nat → ℚ) (now : Nat) : List Candidate :=
  let candidates := scrapedCandidates fetch excludeSite now
  if candidates.isEmpty then mockCandidates query excludeSite rand now else candidates

/-! ## Price extraction (`scraper.js` lines 173-202)

`extractPrice` strips a currency prefix, then tries three regex patterns
in order; each pattern's numeric capture is `\d{1,3}(?:,\d{3})*(?:\.\d{2})?`.
The leftmost-match and greedy semantics of the JS regexes are embedded
directly.  The returned value models the `numeric` field; the route then
converts it with `Math.round(numeric * 100)`. -/

/-- Numeric value of a decimal digit character. -/
def digitsToNat (cs : List Char) : Nat :=
  cs.foldl (fun acc c => acc * 10 + (c.toNat - 48)) 0

/-- Greedy match of `\d{1,3}(?:,\d{3})*(?:\.\d{2})?` anchored at the head
of the list; returns the matched characters. -/
def commaGroups : List Char → (List Char × List Char)
  | ',' :: a :: b :: c :: rest =>
      if a.isDigit && b.isDigit && c.isDigit then
        let gr := commaGroups rest
        (',' :: a :: b :: c :: gr.1, gr.2)
      else ([], ',' :: a :: b :: c :: rest)
  | l => ([], l)

/-- Anchored match of the numeric capture group of the price patterns. -/
def matchNum (cs : List Char) : Option (List Char) :=
  let d1 := (cs.takeWhile Char.isDigit).take 3
  if d1.isEmpty then none
  else
    let rest1 := cs.drop d1.length
    let gr := commaGroups rest1
    let frac : List Char :=
      match gr.2 with
      | '.' :: a :: b :: _ => if a.isDigit && b.isDigit then ['.', a, b] else []
      | _ => []
    some (d1 ++ gr.1 ++ frac)

/-- Leftmost match of the bare numeric pattern (pattern 2 of
`extractPrice`). -/
def scanNum : List Char → Option (List Char)
  | [] => none
  | c :: rest =>
      match matchNum (c :: rest) with
      | some m => some m
      | none => scanNum rest

/-- Leftmost match of pattern 1, `₹\s?(NUM)`. -/
def scanRupeeNum : List Char → Option (List Char)
  | [] => none
  | c :: rest =>
      if c = '₹' then
        let restAfter :=
          match rest with
          | w :: r2 => if w.isWhitespace then r2 else rest
          | [] => rest
        match matchNum restAfter with
        | some m => some m
        | none => scanRupeeNum rest
      else scanRupeeNum rest

/-- Leftmost match of pattern 3, `Rs\.?\s?(NUM)` (case-insensitive). -/
def scanRsNum : List Char → Option (List Char)
  | [] => none
  | c :: rest =>
      if c.toLower = 'r' then
        match rest with
        | s :: r2 =>
            if s.toLower = 's' then
              let r3 := match r2 with
                | '.' :: r => r
                | _ => r2
              let r4 := match r3 with
                | w :: r => if w.isWhitespace then r else r3
                | [] => r3
              match matchNum r4 with
              | some m => some m
              | none => scanRsNum rest
            else scanRsNum rest
        | [] => none
      else scanRsNum rest

/-- Case-insensitive literal prefix consumption. -/
def ciStripPre : List Char → List Char → Option (List Char)
  | [], ys => some ys
  | _, [] => none
  | x :: xs, y :: ys => if x.toLower = y.toLower then ciStripPre xs ys else none

/-- The `replace(/^(Price:|Rs\.?|₹|\$)\s*\/i, '')` prefix strip, with the
regex alternation tried in order and greedily. -/
def stripPriceAffix (cs : List Char) : List Char :=
  match ciStripPre (String.toList "Price:") cs with
  | some r => r.dropWhile Char.isWhitespace
  | none =>
    match ciStripPre (String.toList "Rs.") cs with
    | some r => r.dropWhile Char.isWhitespace
    | none =>
      match ciStripPre (String.toList "Rs") cs with
      | some r => r.dropWhile Char.isWhitespace
      | none =>
        match ciStripPre (String.toList "₹") cs with
        | some r => r.dropWhile Char.isWhitespace
        | none =>
          match ciStripPre (String.toList "$") cs with
          | some r => r.dropWhile Char.isWhitespace
          | none => cs

/-- `parseFloat(priceStr.replace(/,/g, ''))` for the digit strings the
patterns can produce (digits with an optional two-digit fraction). -/
def parseNumQ (cs : List Char) : ℚ :=
  let noCommas := cs.filter (fun c => c ≠ ',')
  let intPart := noCommas.takeWhile Char.isDigit
  let rest := noCommas.drop intPart.length
  let intVal : ℚ := (digitsToNat intPart : ℚ)
  match rest with
  | '.' :: fr =>
      let frd := fr.takeWhile Char.isDigit
      intVal + (digitsToNat frd : ℚ) / ((10 : ℚ) ^ frd.length)
  | _ => intVal

/-- The `for (const pattern of patterns)` loop: the first pattern that
matches with a positive numeric value wins; a match with a non-positive
value falls through to the next pattern. -/
def pickPositive : List (Option (List Char)) → Option ℚ
  | [] => none
  | o :: rest =>
      match o with
      | some m => if parseNumQ m > 0 then some (parseNumQ m) else pickPositive rest
      | none => pickPositive rest

/-- JavaScript `trim()` on a character list. -/
def jsTrim (cs : List Char) : List Char :=
  ((cs.dropWhile Char.isWhitespace).reverse.dropWhile Char.isWhitespace).reverse

/-- `extractPrice` of `scraper.js`: `null` on empty text, otherwise the
first positive numeric match of the three patterns over the
prefix-stripped, trimmed text. -/
def extractPrice (text : String) : Option ℚ :=
  if text = "" then none
  else
    let cleaned := stripPriceAffix (jsTrim text.toList)
    pickPositive [scanRupeeNum cleaned, scanNum cleaned, scanRsNum cleaned]

/-! ## Perceptual-hash Hamming distance (`phash.js` lines 178-210)

`phashHammingDistance` parses each hex hash with `parseInt(hash, 16)`,
which rounds the integer value to the nearest IEEE-754 double (64-bit
hashes exceed the 53-bit mantissa), renders it in binary with
`toString(2)`, pads to 64 characters, and counts positions of the first
string whose character differs from the second string's (an out-of-range
index reads as `undefined` and always counts as a difference).  All of
this is exact integer arithmetic and is embedded as such. -/

/-- Hex digit value accepted by `parseInt(_, 16)`. -/
def hexVal (c : Char) : Option Nat :=
  if c.isDigit then some (c.toNat - 48)
  else
    let l := c.toLower
    if 'a' ≤ l ∧ l ≤ 'f' then some (l.toNat - 87) else none

/-- `parseInt(s, 16)`: the integer value of the maximal hex-digit prefix,
or `none` (JS `NaN`) when there is none. -/
def parseIntHex (s : String) : Option Nat :=
  let ds := s.toList.takeWhile (fun c => (hexVal c).isSome)
  if ds.isEmpty then none
  else some (ds.foldl (fun acc c => acc * 16 + (hexVal c).getD 0) 0)

/-- Binary length of a natural number (1 for 0). -/
def bitLen (n : Nat) : Nat := (Nat.toDigits 2 n).length

/-- Round a natural number to the nearest IEEE-754 double (53-bit
mantissa, round half to even); the identity below `2^53`. -/
def roundToDouble (n : Nat) : Nat :=
  if n < 2 ^ 53 then n
  else
    let e := bitLen n - 53
    let q := n / 2 ^ e
    let r := n % 2 ^ e
    let h := 2 ^ (e - 1)
    let q2 := if r > h ∨ (r = h ∧ q % 2 = 1) then q + 1 else q
    q2 * 2 ^ e

/-- `n.toString(2)`: binary digits, most significant first. -/
def toBinChars (n : Nat) : List Char := Nat.toDigits 2 n

/-- `padStart(64, '0')`. -/
def padStart64 (l : List Char) : List Char :=
  List.replicate (64 - l.length) '0' ++ l

/-- The distance loop of `phashHammingDistance`: iterate over the first
string's positions; a position past the second string's end compares a
character against `undefined` and always differs. -/
def diffCount : List Char → List Char → Nat
  | [], _ => 0
  | _ :: t1, [] => 1 + diffCount t1 []
  | c1 :: t1, c2 :: t2 => (if c1 ≠ c2 then 1 else 0) + diffCount t1 t2

/-- `phashHammingDistance(hash1, hash2)`; `none` models the thrown
errors (falsy argument, length mismatch, or a non-hex hash whose parse
is `NaN` and outside every claim's scope). -/
def phashHammingDistance (hash1 hash2 : String) : Option Nat :=
  if hash1 = "" ∨ hash2 = "" then none
  else if hash1.length ≠ hash2.length then none
  else
    match parseIntHex hash1, parseIntHex hash2 with
    | some a, some b =>
        some (diffCount (padStart64 (toBinChars (roundToDouble a)))
          (padStart64 (toBinChars (roundToDouble b))))
    | _, _ => none

/-- `areSimilar(hash1, hash2, threshold)`. -/
def areSimilar (hash1 hash2 : String) (threshold : Nat) : Option Bool :=
  (phashHammingDistance hash1 hash2).map (fun d => d ≤ threshold)

/-- `areSimilar` at its default threshold of 10. -/
def areSimilarDefault (hash1 hash2 : String) : Option Bool :=
  areSimilar hash1 hash2 10

/-! ## The product matcher

Modelled from the spec: `server/matcher.js` (exporting `findBestMatch`
and `scoreCandidate`) is required by `search-crosssite.js` and by
`tests/integration-match.test.js` but is not among the shipped sources;
the definitions in this section follow the design document's §4.1 (text
normalizer), §4.2 (identifier extractor), §4.3 (similarity scorer) and
§4.5 (match resolver): exact-identifier stage scoring `1.0` with
`modelMatch`, Jaccard title stage mapping into `[0.5, 0.95]` via
`0.5 + J * 0.45`, brand bonus `+0.10`, `+0.05` per shared significant
keyword, final score capped at `1.0`, `InvalidInput` on an empty source
title, and first-encountered tie-breaking for the best match. -/

/-- The source product descriptor (`{site, site_id, title}` plus the
optional model/brand fields the scorer may consult). -/
structure SourceDescriptor where
  site : String
  site_id : String
  title : String
  model : Option String
  brand : Option String
deriving Repr, DecidableEq

/-- Modelled from the spec: the fixed stop-word set of §4.1. -/
def stopWords : List String :=
  ["the", "a", "an", "and", "or", "but", "in", "on", "at", "to", "for",
   "of", "with", "by", "from", "as", "is", "was", "are", "were", "been"]

/-- Split a character list into its maximal space-free words; `acc`
holds the current word reversed. -/
def wordsAux : List Char → List Char → List (List Char)
  | [], acc => if acc.isEmpty then [] else [acc.reverse]
  | c :: rest, acc =>
      if c = ' ' then
        if acc.isEmpty then wordsAux rest [] else acc.reverse :: wordsAux rest []
      else wordsAux rest (c :: acc)

/-- Modelled from the spec: lower-case, replace non-alphanumerics with
spaces, then split into the nonempty words (collapsing whitespace). -/
def normalizeWords (text : String) : List String :=
  (wordsAux (text.toList.map
    (fun c => if isAlnumChar c then c.toLower else ' ')) []).map String.mk

/-- Modelled from the spec: `normalize` of §4.1 (the collapsed, trimmed
normal form). -/
def normalize (text : String) : String :=
  String.intercalate " " (normalizeWords text)

/-- Modelled from the spec: `tokenize` of §4.1 — normalized words of
length at least 2 that are not stop-words, as a set. -/
def tokenize (text : String) : Finset String :=
  ((normalizeWords text).filter
    (fun w => w.length > 1 && !(stopWords.contains w))).toFinset

/-- Run an anchored matcher at every position, left to right, skipping
past each match (the JS global-regex scan); `fuel` is the list length. -/
def scanWith (try1 : List Char → Option (List Char × List Char)) :
    Nat → List Char → List (List Char)
  | 0, _ => []
  | _, [] => []
  | fuel + 1, c :: rest =>
      match try1 (c :: rest) with
      | some pr => pr.1 :: scanWith try1 fuel pr.2
      | none => scanWith try1 fuel rest

/-- Modelled from the spec: identifier pattern (a) — 2+ uppercase
letters, 2+ digits, 0-2 trailing letters, optional `/letters` suffix. -/
def tryPatA (cs : List Char) : Option (List Char × List Char) :=
  let u := cs.takeWhile isUpperChar
  if u.length < 2 then none
  else
    let r1 := cs.drop u.length
    let d := r1.takeWhile Char.isDigit
    if d.length < 2 then none
    else
      let r2 := r1.drop d.length
      let tl := (r2.takeWhile isUpperChar).take 2
      let r3 := r2.drop tl.length
      match r3 with
      | '/' :: t =>
          let sfx := t.takeWhile isUpperChar
          if sfx.isEmpty then some (u ++ d ++ tl, r3)
          else some (u ++ d ++ tl ++ '/' :: sfx, t.drop sfx.length)
      | _ => some (u ++ d ++ tl, r3)

/-- One or more hyphen-joined blocks of uppercase letters and digits
(`fuel` bounds the recursion by the list length). -/
def hyphenBlocks : Nat → List Char → List Char × List Char
  | 0, l => ([], l)
  | fuel + 1, l =>
      match l with
      | '-' :: t =>
          let blk := t.takeWhile (fun c => isUpperChar c || c.isDigit)
          if blk.isEmpty then ([], '-' :: t)
          else
            let hb := hyphenBlocks fuel (t.drop blk.length)
            ('-' :: (blk ++ hb.1), hb.2)
      | l2 => ([], l2)

/-- Modelled from the spec: identifier pattern (b) — uppercase letters
and digit blocks joined by hyphens (e.g. `SM-S911B`). -/
def tryPatB (cs : List Char) : Option (List Char × List Char) :=
  let u := cs.takeWhile isUpperChar
  if u.isEmpty then none
  else
    let hb := hyphenBlocks cs.length (cs.drop u.length)
    if hb.1.isEmpty then none else some (u ++ hb.1, hb.2)

/-- Modelled from the spec: identifier pattern (c) — digits followed by
uppercase letters. -/
def tryPatC (cs : List Char) : Option (List Char × List Char) :=
  let d := cs.takeWhile Char.isDigit
  if d.isEmpty then none
  else
    let r := cs.drop d.length
    let u := r.takeWhile isUpperChar
    if u.isEmpty then none else some (d ++ u, r.drop u.length)

/-- Modelled from the spec: identifier pattern (d) — a single uppercase
letter, 3+ digits, optional trailing letter and `/letters` suffix. -/
def tryPatD (cs : List Char) : Option (List Char × List Char) :=
  match cs with
  | [] => none
  | c :: r1 =>
      if isUpperChar c then
        let d := r1.takeWhile Char.isDigit
        if d.length < 3 then none
        else
          let r2 := r1.drop d.length
          let tl := (r2.takeWhile isUpperChar).take 1
          let r3 := r2.drop tl.length
          match r3 with
          | '/' :: t =>
              let sfx := t.takeWhile isUpperChar
              if sfx.isEmpty then some (c :: (d ++ tl), r3)
              else some (c :: (d ++ tl ++ '/' :: sfx), t.drop sfx.length)
          | _ => some (c :: (d ++ tl), r3)
      else none

/-- Modelled from the spec: `extractModelTokens` of §4.2 — union of all
four patterns' matches over the raw text, hyphens stripped from each
matched token, slash suffixes preserved. -/
def extractModelTokens (text : String) : List String :=
  let cs := text.toList
  let fuel := cs.length
  (scanWith tryPatA fuel cs ++ scanWith tryPatB fuel cs
    ++ scanWith tryPatC fuel cs ++ scanWith tryPatD fuel cs).map
    (fun t => String.mk (t.filter (fun c => c ≠ '-')))

/-- Contiguous-substring test on character lists. -/
def isSubstrB (needle hay : List Char) : Bool :=
  hay.tails.any (fun t => needle.isPrefixOf t)

/-- Modelled from the spec: the §4.3 stage-1 trigger — some extracted
token of one side equals, is a substring of, or contains a token of the
other side. -/
def sharesIdentifier (t1 t2 : String) : Bool :=
  (extractModelTokens t1).any (fun a =>
    (extractModelTokens t2).any (fun b =>
      isSubstrB a.toList b.toList || isSubstrB b.toList a.toList))

/-- The identifier text of the source: `source.model ?? source.title`. -/
def idTextSource (s : SourceDescriptor) : String := s.model.getD s.title

/-- The identifier text of a candidate: `candidate.model ?? candidate.title`. -/
def idTextCand (c : Candidate) : String := c.model.getD c.title

/-- Modelled from the spec: the fixed significant-keyword set of §4.3. -/
def significantKeywords : List String := ["pro", "max", "plus", "ultra", "mini"]

/-- A scored candidate (§3 data model). -/
structure ScoredCandidate where
  candidate : Candidate
  score : ℚ
  modelMatch : Bool
  breakdown : List String
deriving Repr, DecidableEq

/-- Jaccard similarity of two token sets; 0 on an empty union. -/
def jaccard (a b : Finset String) : ℚ :=
  if (a ∪ b).card = 0 then 0
  else ((a ∩ b).card : ℚ) / ((a ∪ b).card : ℚ)

/-- Modelled from the spec: the §4.3 stage-2 score
`0.5 + J * 0.45` over the tokenized titles. -/
def stage2Score (t1 t2 : String) : ℚ :=
  1/2 + jaccard (tokenize t1) (tokenize t2) * (9/20)

/-- Modelled from the spec: brand bonus `+0.10` when both brands are
present and normalize to the same string. -/
def brandBonus (s : SourceDescriptor) (c : Candidate) : ℚ :=
  match s.brand, c.brand with
  | some b1, some b2 => if normalize b1 = normalize b2 then 1/10 else 0
  | _, _ => 0

/-- Significant keywords present in both tokenized titles. -/
def sharedKeywords (s : SourceDescriptor) (c : Candidate) : List String :=
  significantKeywords.filter (fun k =>
    decide (k ∈ tokenize s.title) && decide (k ∈ tokenize c.title))

/-- Modelled from the spec: keyword bonus `+0.05` per shared keyword. -/
def keywordBonus (s : SourceDescriptor) (c : Candidate) : ℚ :=
  ((sharedKeywords s c).length : ℚ) * (1/20)

/-- Modelled from the spec: `scoreCandidate` — stage 1 scores exactly 1
with `modelMatch` on a shared identifier token; otherwise stage 2 plus
bonuses, capped at 1. -/
def scoreCandidate (s : SourceDescriptor) (c : Candidate) : ScoredCandidate :=
  if sharesIdentifier (idTextSource s) (idTextCand c) then
    { candidate := c, score := 1, modelMatch := true,
      breakdown := ["exact identifier match"] }
  else
    let bb := brandBonus s c
    { candidate := c,
      score := min 1 (stage2Score s.title c.title + bb + keywordBonus s c),
      modelMatch := false,
      breakdown := ["title similarity"]
        ++ (if bb > 0 then ["brand match"] else [])
        ++ (sharedKeywords s c).map (fun k => "keyword " ++ k) }

/-- The matcher's result record (`best`, `score`, `allScores`, and the
error marker of the no-candidates reason). -/
structure MatchResult where
  best : Option ScoredCandidate
  score : ℚ
  allScores : List ScoredCandidate
  reasonError : Bool
deriving Repr, DecidableEq

/-- Stable descending insertion by score: a new element goes after all
existing elements of greater-or-equal score. -/
def insertByScore (c : ScoredCandidate) : List ScoredCandidate → List ScoredCandidate
  | [] => [c]
  | b :: t => if b.score ≥ c.score then b :: insertByScore c t else c :: b :: t

/-- Stable descending sort of the scored list (JS `Array.sort` is
stable). -/
def sortByScoreDesc (l : List ScoredCandidate) : List ScoredCandidate :=
  l.foldl (fun acc c => insertByScore c acc) []

/-- Modelled from the spec: `findBestMatch` — `InvalidInput` error on an
empty source title, an error-marked empty result on an empty candidate
list, otherwise all candidates scored, the best chosen as the first
maximum in input order, and `allScores` sorted by descending score. -/
def findBestMatch (s : SourceDescriptor) (cands : List Candidate) :
    Except String MatchResult :=
  if s.title = "" then Except.error "InvalidInput: source title is required"
  else if cands.isEmpty then
    Except.ok { best := none, score := 0, allScores := [], reasonError := true }
  else
    let scored := cands.map (scoreCandidate s)
    let best := firstMaxBy (fun x : ScoredCandidate => x.score) scored
    Except.ok
      { best := best,
        score := (best.map (fun x => x.score)).getD 0,
        allScores := sortByScoreDesc scored,
        reasonError := false }

/-! ## The route handler (`search-crosssite.js` lines 262-381)

The scraping of candidates is abstracted into the `candidates` argument
(`loadCandidates` above models how the route obtains it). -/

/-- The flattened view of a scored candidate as the route reads it from
`result.allScores`. -/
def toScored (x : ScoredCandidate) : Scored :=
  { site := x.candidate.site, site_id := x.candidate.site_id,
    title := x.candidate.title, price_cents := x.candidate.price_cents,
    url := x.candidate.url, image := x.candidate.image,
    rating := x.candidate.rating, score := x.score,
    reason := String.intercalate "; " x.breakdown }

/-- The route's possible responses: the 400 validation failure, the
all-unavailable response of the empty-candidates branch, the matched
response, and an uncaught matcher error (HTTP 500). -/
inductive RouteResponse where
  | badRequest : RouteResponse
  | noCandidates : List SiteResult → RouteResponse
  | matched : List SiteResult → Option ScoredCandidate → RouteResponse
  | serverError : String → RouteResponse
deriving Repr, DecidableEq

/-- One entry of the route's all-unavailable response (lines 291-301). -/
def notAvailableEntry (targetSite : String) : SiteResult :=
  { site := targetSite, available := false, site_id := none,
    title := "Not Available", price_cents := 0, url := none, image := none,
    rating := none, score := 0, reason := "Product not found on this site",
    match_quality := none }

/-- `GET /v1/search-crosssite`: reject when any of `site`, `id`, `title`
is missing (falsy), otherwise resolve the candidates and build the
per-site availability view. -/
def handleSearchCrosssite (site pid title : String) (candidates : List Candidate) :
    RouteResponse :=
  if site = "" ∨ pid = "" ∨ title = "" then RouteResponse.badRequest
  else if candidates.isEmpty then
    RouteResponse.noCandidates
      ((allSites.filter (fun s => s ≠ site)).map notAvailableEntry)
  else
    match findBestMatch
        { site := site, site_id := pid, title := title,
          model := none, brand := none } candidates with
    | Except.error e => RouteResponse.serverError e
    | Except.ok r =>
        RouteResponse.matched
          (finalResults site title (siteGroups (r.allScores.map toScored)))
          r.best

/-! ## Lemmas about the grouping and best-selection folds -/

theorem firstMaxBy_cons (f : α → ℚ) (c : α) (t : List α) :
    firstMaxBy f (c :: t) = combineMax f (some c) (firstMaxBy f t) := by
  cases h : firstMaxBy f t <;> simp [firstMaxBy, combineMax, h]

theorem combineMax_some_left (f : α → ℚ) (a : α) (o : Option α) :
    ∃ r, combineMax f (some a) o = some r := by
  cases o with
  | none => exact ⟨a, rfl⟩
  | some b =>
      simp only [combineMax]
      by_cases h : f b > f a
      · exact ⟨b, if_pos h⟩
      · exact ⟨a, if_neg h⟩

theorem firstMaxBy_ne_none (f : α → ℚ) (a : α) (t : List α) :
    firstMaxBy f (a :: t) ≠ none := by
  rw [firstMaxBy_cons]
  obtain ⟨r, hr⟩ := combineMax_some_left f a (firstMaxBy f t)
  simp [hr]

theorem combineMax_assoc (f : α → ℚ) (a b c : Option α) :
    combineMax f (combineMax f a b) c = combineMax f a (combineMax f b c) := by
  rcases a with _ | a
  · rfl
  rcases b with _ | b
  · rfl
  rcases c with _ | c
  · simp only [combineMax]
    by_cases h : f b > f a <;> simp [h]
  · by_cases h1 : f b > f a <;> by_cases h2 : f c > f b
    · have h3 : f c > f a := by linarith
      simp [combineMax, h1, h2, h3]
    · simp [combineMax, h1, h2]
    · by_cases h3 : f c > f a <;> simp [combineMax, h1, h2, h3]
    · have h3 : ¬ f c > f a := by linarith
      simp [combineMax, h1, h2, h3]

theorem firstMaxBy_mem (f : α → ℚ) :
    ∀ (l : List α) (m : α), firstMaxBy f l = some m → m ∈ l := by
  intro l
  induction l with
  | nil => intro m h; simp [firstMaxBy] at h
  | cons c t ih =>
      intro m h
      rw [firstMaxBy_cons] at h
      cases hb : firstMaxBy f t with
      | none => rw [hb] at h; simp [combineMax] at h; simp [h]
      | some b =>
          rw [hb] at h
          simp only [combineMax] at h
          split at h
          · rw [← Option.some.inj h]
            exact List.mem_cons_of_mem _ (ih b hb)
          · rw [← Option.some.inj h]
            exact List.mem_cons_self _ _

theorem firstMaxBy_le (f : α → ℚ) :
    ∀ (l : List α) (m : α), firstMaxBy f l = some m → ∀ c ∈ l, f c ≤ f m := by
  intro l
  induction l with
  | nil => intro m h; simp [firstMaxBy] at h
  | cons c t ih =>
      intro m h x hx
      rw [firstMaxBy_cons] at h
      cases hb : firstMaxBy f t with
      | none =>
          rw [hb] at h; simp only [combineMax] at h
          have hcm : c = m := Option.some.inj h
          rcases List.mem_cons.mp hx with hxc | hxt
          · rw [hxc, ← hcm]
          · cases t with
            | nil => simp at hxt
            | cons d u => exact absurd hb (firstMaxBy_ne_none f d u)
      | some b =>
          rw [hb] at h
          simp only [combineMax] at h
          by_cases hbc : f b > f c
          · rw [if_pos hbc] at h
            have hbm : b = m := Option.some.inj h
            rcases List.mem_cons.mp hx with hxc | hxt
            · rw [hxc, ← hbm]; linarith
            · rw [← hbm]; exact ih b hb x hxt
          · rw [if_neg hbc] at h
            have hcm : c = m := Option.some.inj h
            rcases List.mem_cons.mp hx with hxc | hxt
            · rw [hxc, ← hcm]
            · rw [← hcm]
              have := ih b hb x hxt
              linarith [not_lt.mp hbc]

theorem firstMaxBy_first (f : α → ℚ) :
    ∀ (l : List α) (m : α), firstMaxBy f l = some m →
      ∃ pre post, l = pre ++ m :: post ∧ ∀ c ∈ pre, f c < f m := by
  intro l
  induction l with
  | nil => intro m h; simp [firstMaxBy] at h
  | cons c t ih =>
      intro m h
      rw [firstMaxBy_cons] at h
      cases hb : firstMaxBy f t with
      | none =>
          rw [hb] at h; simp only [combineMax] at h
          rw [← Option.some.inj h]
          exact ⟨[], t, by simp⟩
      | some b =>
          rw [hb] at h
          simp only [combineMax] at h
          by_cases hbc : f b > f c
          · rw [if_pos hbc] at h
            have hbm : b = m := Option.some.inj h
            obtain ⟨pre, post, hsplit, hlt⟩ := ih m (by rw [hb, hbm])
            refine ⟨c :: pre, post, by simp [hsplit], ?_⟩
            intro x hx
            rcases List.mem_cons.mp hx with hxc | hxp
            · rw [hxc, ← hbm]; exact hbc
            · exact hlt x hxp
          · rw [if_neg hbc] at h
            rw [← Option.some.inj h]
            exact ⟨[], t, by simp⟩

theorem firstMaxBy_unique_max (f : α → ℚ) (l : List α) (c : α)
    (hc : c ∈ l) (hmax : ∀ d ∈ l, d ≠ c → f d < f c) :
    firstMaxBy f l = some c := by
  induction l with
  | nil => simp at hc
  | cons hd t ih =>
      rw [firstMaxBy_cons]
      by_cases hhd : hd = c
      · subst hhd
        cases hb : firstMaxBy f t with
        | none => simp [combineMax]
        | some b =>
            have hbt := firstMaxBy_mem f t b hb
            simp only [combineMax]
            by_cases hbc : b = hd
            · subst hbc; simp
            · have hlt := hmax b (List.mem_cons_of_mem _ hbt) hbc
              have hng : ¬ f b > f hd := by linarith
              simp [hng]
      · have hct : c ∈ t := by
          rcases List.mem_cons.mp hc with h | h
          · exact absurd h.symm hhd
          · exact h
        have hrec := ih hct (fun d hdmem hdc => hmax d (List.mem_cons_of_mem _ hdmem) hdc)
        rw [hrec]
        have hlt := hmax hd (List.mem_cons_self _ _) hhd
        simp only [combineMax]
        simp [hlt]

theorem combineMax_none_right (f : α → ℚ) (o : Option α) :
    combineMax f o none = o := by
  cases o <;> rfl

theorem siteGroupsStep_apply (m : String → Option Scored) (c : Scored) (s : String) :
    siteGroupsStep m c s =
      if s = c.site then combineMax (fun x : Scored => x.score) (m s) (some c)
      else m s := by
  by_cases hs : s = c.site
  · cases hmc : m c.site with
    | none =>
        simp only [siteGroupsStep, hmc, hs, combineMax, if_pos]
    | some b =>
        simp only [siteGroupsStep, hmc, hs, combineMax, if_pos]
        by_cases hsc : c.score > b.score
        · simp [hsc]
        · simp [hsc, hmc]
  · cases hmc : m c.site with
    | none => simp [siteGroupsStep, hmc, hs]
    | some b =>
        simp only [siteGroupsStep, hmc]
        by_cases hsc : c.score > b.score
        · simp [hsc, hs]
        · simp [hsc, hs]

theorem siteGroups_foldl (l : List Scored) :
    ∀ (m : String → Option Scored) (s : String),
      (l.foldl siteGroupsStep m) s =
        combineMax (fun x : Scored => x.score) (m s)
          (firstMaxBy (fun x : Scored => x.score)
            (l.filter (fun x => x.site = s))) := by
  induction l with
  | nil =>
      intro m s
      simp [firstMaxBy, combineMax_none_right]
  | cons c t ih =>
      intro m s
      simp only [List.foldl_cons]
      rw [ih]
      by_cases hs : c.site = s
      · have hfs : (c :: t).filter (fun x => x.site = s)
            = c :: t.filter (fun x => x.site = s) := by
          simp [List.filter_cons, hs]
        rw [hfs, firstMaxBy_cons, siteGroupsStep_apply, if_pos hs.symm,
          combineMax_assoc]
      · have hfs : (c :: t).filter (fun x => x.site = s)
            = t.filter (fun x => x.site = s) := by
          simp [List.filter_cons, hs]
        rw [hfs, siteGroupsStep_apply, if_neg (fun h => hs h.symm)]

/-- The per-site grouping of the route equals, at every site, the first
maximum (by score) of the candidates of that site, in input order. -/
theorem siteGroups_eq_firstMax (l : List Scored) (s : String) :
    siteGroups l s =
      firstMaxBy (fun x : Scored => x.score) (l.filter (fun x => x.site = s)) := by
  unfold siteGroups
  rw [siteGroups_foldl]
  rfl

/-! ## Lemmas about the scorer -/

theorem jaccard_nonneg (a b : Finset String) : 0 ≤ jaccard a b := by
  unfold jaccard
  split
  · exact le_refl 0
  · exact div_nonneg (Nat.cast_nonneg _) (Nat.cast_nonneg _)

theorem jaccard_le_one (a b : Finset String) : jaccard a b ≤ 1 := by
  unfold jaccard
  split
  · exact zero_le_one
  · rename_i h
    have hpos : (0 : ℚ) < ((a ∪ b).card : ℚ) := by
      exact_mod_cast Nat.pos_of_ne_zero h
    rw [div_le_one hpos]
    exact_mod_cast Finset.card_le_card Finset.inter_subset_union

theorem stage2Score_bounds (t1 t2 : String) :
    1/2 ≤ stage2Score t1 t2 ∧ stage2Score t1 t2 ≤ 19/20 := by
  unfold stage2Score
  have h0 := jaccard_nonneg (tokenize t1) (tokenize t2)
  have h1 := jaccard_le_one (tokenize t1) (tokenize t2)
  have h2 : jaccard (tokenize t1) (tokenize t2) * (9/20) ≤ 1 * (9/20) :=
    mul_le_mul_of_nonneg_right h1 (by norm_num)
  have h3 : 0 ≤ jaccard (tokenize t1) (tokenize t2) * (9/20) :=
    mul_nonneg h0 (by norm_num)
  constructor <;> linarith

theorem brandBonus_nonneg (s : SourceDescriptor) (c : Candidate) :
    0 ≤ brandBonus s c := by
  unfold brandBonus
  rcases s.brand with _ | b1 <;> rcases c.brand with _ | b2
  · exact le_refl 0
  · exact le_refl 0
  · exact le_refl 0
  · show (0 : ℚ) ≤ if normalize b1 = normalize b2 then 1/10 else 0
    split <;> norm_num

theorem keywordBonus_nonneg (s : SourceDescriptor) (c : Candidate) :
    0 ≤ keywordBonus s c :=
  mul_nonneg (Nat.cast_nonneg _) (by norm_num)

theorem scoreCandidate_score_bounds (s : SourceDescriptor) (c : Candidate) :
    0 ≤ (scoreCandidate s c).score ∧ (scoreCandidate s c).score ≤ 1 := by
  unfold scoreCandidate
  split
  · exact ⟨by norm_num, by norm_num⟩
  · constructor
    · apply le_min
      · norm_num
      · have h1 := (stage2Score_bounds s.title c.title).1
        have hb := brandBonus_nonneg s c
        have hk := keywordBonus_nonneg s c
        linarith
    · exact min_le_left _ _

/-! ## Claims -/

/-- C3: for any two scored candidates from the same source, the
per-source-best map keeps only the one with the strictly higher score;
when scores are equal the candidate encountered first in input order is
kept (everything before the kept candidate among its site's entries
scores strictly lower), so the grouping is deterministic for a fixed
input ordering. -/
theorem c3_per_source_best_keeps_first_max (l : List Scored) (s : String) (m : Scored)
    (h : siteGroups l s = some m) :
    m ∈ l.filter (fun x => x.site = s) ∧
    (∀ c ∈ l.filter (fun x => x.site = s), c.score ≤ m.score) ∧
    ∃ pre post, l.filter (fun x => x.site = s) = pre ++ m :: post ∧
      ∀ c ∈ pre, c.score < m.score := by
  rw [siteGroups_eq_firstMax] at h
  exact ⟨firstMaxBy_mem _ _ _ h, firstMaxBy_le _ _ _ h, firstMaxBy_first _ _ _ h⟩

/-- Tie witness input: two flipkart candidates with equal scores. -/
def wScoredA : Scored :=
  { site := "flipkart", site_id := "one", title := "t1", price_cents := 100,
    url := "u1", image := "i1", rating := none, score := 1/2, reason := "r1" }

/-- Tie witness input: the later equal-scoring flipkart candidate. -/
def wScoredB : Scored :=
  { site := "flipkart", site_id := "two", title := "t2", price_cents := 50,
    url := "u2", image := "i2", rating := none, score := 1/2, reason := "r2" }

theorem c3_per_source_best_keeps_first_max_witness :
    wScoredA ∈ ([wScoredA, wScoredB].filter (fun x => x.site = "flipkart")) ∧
    (∀ c ∈ [wScoredA, wScoredB].filter (fun x => x.site = "flipkart"),
      c.score ≤ wScoredA.score) ∧
    ∃ pre post, [wScoredA, wScoredB].filter (fun x => x.site = "flipkart")
        = pre ++ wScoredA :: post ∧
      ∀ c ∈ pre, c.score < wScoredA.score :=
  c3_per_source_best_keeps_first_max [wScoredA, wScoredB] "flipkart" wScoredA
    (by simp [siteGroups, List.foldl, siteGroupsStep, wScoredA, wScoredB])

/-- C2: a site is reported available iff its best per-site candidate
exists and scores at or above the 0.4 threshold; an available result is
bucketed `excellent` when its score is at least 0.8, `good` when in
[0.6, 0.8), and `fair` when in [0.4, 0.6). -/
theorem c2_availability_threshold_and_tiers (sourceSite title : String)
    (groups : String → Option Scored) (t : String)
    (ht : t ∈ allSites.filter (fun s => s ≠ sourceSite)) :
    mkSiteResult title t (groups t) ∈ finalResults sourceSite title groups ∧
    ((mkSiteResult title t (groups t)).available = true ↔
      ∃ m, groups t = some m ∧ (2/5 : ℚ) ≤ m.score) ∧
    ((mkSiteResult title t (groups t)).available = true →
      ((4/5 : ℚ) ≤ (mkSiteResult title t (groups t)).score →
        (mkSiteResult title t (groups t)).match_quality = some "excellent") ∧
      ((3/5 : ℚ) ≤ (mkSiteResult title t (groups t)).score ∧
          (mkSiteResult title t (groups t)).score < 4/5 →
        (mkSiteResult title t (groups t)).match_quality = some "good") ∧
      ((2/5 : ℚ) ≤ (mkSiteResult title t (groups t)).score ∧
          (mkSiteResult title t (groups t)).score < 3/5 →
        (mkSiteResult title t (groups t)).match_quality = some "fair")) := by
  refine ⟨?_, ?_, ?_⟩
  · unfold finalResults
    exact List.mem_map_of_mem _ ht
  · cases hmo : groups t with
    | none => simp [mkSiteResult, hmo]
    | some m =>
        by_cases hs : (2/5 : ℚ) ≤ m.score
        · simp only [mkSiteResult, hmo, ge_iff_le, if_pos hs]
          exact iff_of_true trivial ⟨m, rfl, hs⟩
        · simp only [mkSiteResult, hmo, ge_iff_le, if_neg hs]
          constructor
          · intro hfalse
            exact absurd hfalse (by simp)
          · rintro ⟨m2, hm2, hsc⟩
            have hm2e : m2 = m := (Option.some.inj hm2).symm
            subst hm2e
            exact absurd hsc hs
  · cases hmo : groups t with
    | none =>
        intro hav
        exact absurd hav (by simp [mkSiteResult, hmo])
    | some m =>
        by_cases hs : (2/5 : ℚ) ≤ m.score
        · intro _
          refine ⟨?_, ?_, ?_⟩
          · intro h4
            simp only [mkSiteResult, hmo, ge_iff_le, if_pos hs] at h4 ⊢
            rw [if_pos h4]
          · rintro ⟨h3, h4⟩
            simp only [mkSiteResult, hmo, ge_iff_le, if_pos hs] at h3 h4 ⊢
            rw [if_neg (not_le.mpr h4), if_pos h3]
          · rintro ⟨h2, h3⟩
            simp only [mkSiteResult, hmo, ge_iff_le, if_pos hs] at h2 h3 ⊢
            rw [if_neg (not_le.mpr h3),
              if_neg (not_le.mpr (lt_of_lt_of_le h3 (by norm_num)))]
        · intro hav
          exact absurd hav (by simp [mkSiteResult, hmo, ge_iff_le, if_neg hs])

/-- Available witness input for the threshold theorem. -/
def wScoredC : Scored :=
  { site := "myntra", site_id := "m1", title := "tm", price_cents := 700,
    url := "um", image := "im", rating := none, score := 7/10, reason := "rm" }

theorem c2_availability_threshold_and_tiers_witness :
    mkSiteResult "q" "myntra" ((fun _ => some wScoredC) "myntra")
      ∈ finalResults "amazon" "q" (fun _ => some wScoredC) ∧
    ((mkSiteResult "q" "myntra" ((fun _ => some wScoredC) "myntra")).available = true ↔
      ∃ m, (fun _ => some wScoredC) "myntra" = some m ∧ (2/5 : ℚ) ≤ m.score) ∧
    ((mkSiteResult "q" "myntra" ((fun _ => some wScoredC) "myntra")).available = true →
      ((4/5 : ℚ) ≤ (mkSiteResult "q" "myntra" ((fun _ => some wScoredC) "myntra")).score →
        (mkSiteResult "q" "myntra" ((fun _ => some wScoredC) "myntra")).match_quality
          = some "excellent") ∧
      ((3/5 : ℚ) ≤ (mkSiteResult "q" "myntra" ((fun _ => some wScoredC) "myntra")).score ∧
          (mkSiteResult "q" "myntra" ((fun _ => some wScoredC) "myntra")).score < 4/5 →
        (mkSiteResult "q" "myntra" ((fun _ => some wScoredC) "myntra")).match_quality
          = some "good") ∧
      ((2/5 : ℚ) ≤ (mkSiteResult "q" "myntra" ((fun _ => some wScoredC) "myntra")).score ∧
          (mkSiteResult "q" "myntra" ((fun _ => some wScoredC) "myntra")).score < 3/5 →
        (mkSiteResult "q" "myntra" ((fun _ => some wScoredC) "myntra")).match_quality
          = some "fair")) :=
  c2_availability_threshold_and_tiers "amazon" "q" (fun _ => some wScoredC) "myntra"
    (by decide)

/-- C5: a connector that throws or times out contributes exactly zero
candidates and does not abort the aggregation: every other connector's
contribution is unchanged, the surviving contributions are still
flattened into one list, and each connector's contribution is capped at
the per-source limit of 3 before flattening. -/
theorem c5_partial_failure_tolerance
    (fetch fetch2 : String → Except String (List Product)) (now : Nat)
    (excl fs e : String)
    (hfail : fetch2 fs = Except.error e)
    (hsame : ∀ t, t ≠ fs → fetch2 t = fetch t) :
    siteContribution fetch2 now fs = [] ∧
    (∀ t, t ≠ fs → siteContribution fetch2 now t = siteContribution fetch now t) ∧
    scrapedCandidates fetch2 excl now =
      ((allSites.filter (fun s => s ≠ excl)).map
        (fun t => if t = fs then [] else siteContribution fetch now t)).flatten ∧
    (∀ t, (siteContribution fetch2 now t).length ≤ 3) := by
  refine ⟨?_, ?_, ?_, ?_⟩
  · unfold siteContribution
    rw [hfail]
  · intro t ht
    unfold siteContribution
    rw [hsame t ht]
  · unfold scrapedCandidates
    congr 1
    apply List.map_congr_left
    intro t _
    by_cases ht : t = fs
    · subst ht
      rw [if_pos rfl]
      unfold siteContribution
      rw [hfail]
    · rw [if_neg ht]
      unfold siteContribution
      rw [hsame t ht]
  · intro t
    unfold siteContribution
    cases h2 : fetch2 t with
    | error e2 => simp
    | ok raw =>
        simp only [List.length_map, List.length_take]
        exact min_le_left _ _

/-- Witness connector result for the partial-failure theorem. -/
def wProd : Product :=
  { productName := "p", numericPrice := none, url := "", image := none,
    scrapedAt := "s", rating := none, source := none }

/-- Witness connector set: flipkart succeeds with one product. -/
def wFetch : String → Except String (List Product) :=
  fun s => if s = "flipkart" then Except.ok [wProd] else Except.ok []

/-- Witness connector set with myntra throwing. -/
def wFetch2 : String → Except String (List Product) :=
  fun s => if s = "myntra" then Except.error "boom" else wFetch s

theorem c5_partial_failure_tolerance_witness :
    siteContribution wFetch2 0 "myntra" = [] ∧
    (∀ t, t ≠ "myntra" → siteContribution wFetch2 0 t = siteContribution wFetch 0 t) ∧
    scrapedCandidates wFetch2 "amazon" 0 =
      ((allSites.filter (fun s => s ≠ "amazon")).map
        (fun t => if t = "myntra" then [] else siteContribution wFetch 0 t)).flatten ∧
    (∀ t, (siteContribution wFetch2 0 t).length ≤ 3) :=
  c5_partial_failure_tolerance wFetch wFetch2 0 "amazon" "myntra" "boom" rfl
    (fun t ht => by unfold wFetch2; rw [if_neg ht])

/-- The all-connectors-empty fetch used to exhibit the mock fallback. -/
def emptyFetch : String → Except String (List Product) := fun _ => Except.ok []

/-- C4 counterexample: with every connector returning zero candidates and
the `amazon` source excluded, `loadCandidates` returns three fabricated
mock candidates rather than an empty (distinctly reported) result — the
engine does substitute fabricated data into the returned candidate
list. -/
theorem c4_no_fabricated_data_counterexample :
    (loadCandidates emptyFetch "iphone 14" "amazon" (fun _ => 0) 0).length = 3 ∧
    ∀ c ∈ loadCandidates emptyFetch "iphone 14" "amazon" (fun _ => 0) 0,
      c.mock = true := by
  constructor
  · rfl
  · decide

/-- C4 amended: when the union of all connectors returns zero candidates,
`loadCandidates` does not report an empty result set; it substitutes the
mock fallback — one fabricated candidate per non-excluded site, each
tagged `mock := true` with a `MOCK_`-prefixed synthetic id — into the
returned candidate list, so the route's distinct empty branch is not
reached. -/
theorem c4_mock_fallback_amended (fetch : String → Except String (List Product))
    (query excl : String) (rand : Nat → ℚ) (now : Nat)
    (hempty : ∀ s, siteContribution fetch now s = []) :
    loadCandidates fetch query excl rand now = mockCandidates query excl rand now ∧
    (loadCandidates fetch query excl rand now).length =
      (allSites.filter (fun s => s ≠ excl)).length ∧
    ∀ c ∈ loadCandidates fetch query excl rand now,
      c.mock = true ∧ ∃ sid, c.site_id = "MOCK_" ++ sid := by
  have hscr : scrapedCandidates fetch excl now = [] := by
    unfold scrapedCandidates
    rw [List.map_congr_left (fun a _ => hempty a)]
    simp
  have hload : loadCandidates fetch query excl rand now
      = mockCandidates query excl rand now := by
    unfold loadCandidates
    rw [hscr]
    simp
  refine ⟨hload, ?_, ?_⟩
  · rw [hload]
    unfold mockCandidates
    simp
  · rw [hload]
    intro c hc
    unfold mockCandidates at hc
    rcases List.mem_map.mp hc with ⟨pair, _, hpair⟩
    constructor
    · rw [← hpair]
    · refine ⟨pair.2.toUpper ++ "_" ++ Nat.repr now ++ "_" ++ Nat.repr pair.1, ?_⟩
      rw [← hpair]
      show "MOCK_" ++ pair.2.toUpper ++ "_" ++ Nat.repr now ++ "_" ++ Nat.repr pair.1
          = "MOCK_" ++ (pair.2.toUpper ++ "_" ++ Nat.repr now ++ "_" ++ Nat.repr pair.1)
      simp [String.append_assoc]

theorem c4_mock_fallback_amended_witness :
    loadCandidates emptyFetch "blue shirt" "flipkart" (fun _ => 0) 7
      = mockCandidates "blue shirt" "flipkart" (fun _ => 0) 7 ∧
    (loadCandidates emptyFetch "blue shirt" "flipkart" (fun _ => 0) 7).length =
      (allSites.filter (fun s => s ≠ "flipkart")).length ∧
    ∀ c ∈ loadCandidates emptyFetch "blue shirt" "flipkart" (fun _ => 0) 7,
      c.mock = true ∧ ∃ sid, c.site_id = "MOCK_" ++ sid :=
  c4_mock_fallback_amended emptyFetch "blue shirt" "flipkart" (fun _ => 0) 7
    (fun _ => rfl)

/-- C10: `extractProductId` has no amazon branch and returns `null` for
every URL, so every amazon candidate gets the synthesized
timestamp-based `amazon_<timestamp>` id, and its canonical key differs
between two runs (timestamps) on identical inputs. -/
theorem c10_amazon_id_not_stable (url : String) (p : Product) (now : Nat) :
    extractProductId url "amazon" = none ∧
    (convert "amazon" now p).site_id = "amazon_" ++ Nat.repr now ∧
    canonicalKey (convert "amazon" 0 p) ≠ canonicalKey (convert "amazon" 1 p) := by
  have h1 : ∀ u : String, extractProductId u "amazon" = none := by
    intro u
    unfold extractProductId
    by_cases hu : u = "" <;> simp [hu]
  refine ⟨h1 url, ?_, ?_⟩
  · unfold convert
    rw [h1 p.url]
    rfl
  · unfold canonicalKey convert
    rw [h1 p.url]
    show ("amazon" ++ ":" ++ (Option.getD none ("amazon" ++ "_" ++ Nat.repr 0))) ≠
      ("amazon" ++ ":" ++ (Option.getD none ("amazon" ++ "_" ++ Nat.repr 1)))
    decide

/-- C6 (code bug): `extractPrice` truncates a four-digit price that has
no thousands separator — `"1499"` parses to `149`, not `1499` — while a
comma-separated `"1,499"` parses fully; the null cases behave as
specified. -/
theorem c6_price_truncation_eval :
    extractPrice "1499" = some 149 ∧
    extractPrice "1,499" = some 1499 ∧
    extractPrice "" = none ∧
    extractPrice "abc" = none := by decide

/-- C9 (code bug): the pHash distance of `phash.js` is not a symmetric
Hamming distance on 16-hex-character hashes: `parseInt` rounds 64-bit
values to doubles, making `d(ffffffffffffffff, 0000000000000000) = 2`
but `d(0000000000000000, ffffffffffffffff) = 1` (a true Hamming distance
would give 64 for both orders); identical hashes still give 0. -/
theorem c9_phash_asymmetry_eval :
    phashHammingDistance "ffffffffffffffff" "0000000000000000" = some 2 ∧
    phashHammingDistance "0000000000000000" "ffffffffffffffff" = some 1 ∧
    phashHammingDistance "ffffffffffffffff" "ffffffffffffffff" = some 0 ∧
    areSimilarDefault "ffffffffffffffff" "0000000000000000" = some true := by
  decide

/-- C7: when no exact identifier match fires, the candidate's score is
the capped sum of the stage-2 score and the bonuses, where the stage-2
score equals `0.5 + J * 0.45` for the Jaccard similarity `J` of the
tokenized titles (0 on an empty union) and lies in `[0.5, 0.95]`; and
every candidate's final score lies in `[0, 1]`. -/
theorem c7_stage2_jaccard_and_bounds (s : SourceDescriptor) (c : Candidate)
    (h : sharesIdentifier (idTextSource s) (idTextCand c) = false) :
    (scoreCandidate s c).score =
      min 1 (stage2Score s.title c.title + brandBonus s c + keywordBonus s c) ∧
    stage2Score s.title c.title =
      1/2 + jaccard (tokenize s.title) (tokenize c.title) * (9/20) ∧
    1/2 ≤ stage2Score s.title c.title ∧
    stage2Score s.title c.title ≤ 19/20 ∧
    (∀ s2 c2, 0 ≤ (scoreCandidate s2 c2).score ∧ (scoreCandidate s2 c2).score ≤ 1) := by
  refine ⟨?_, rfl, (stage2Score_bounds s.title c.title).1,
    (stage2Score_bounds s.title c.title).2,
    fun s2 c2 => scoreCandidate_score_bounds s2 c2⟩
  simp [scoreCandidate, h]

/-- Witness source with no identifier tokens in its title. -/
def wSrcTitleOnly : SourceDescriptor :=
  { site := "amazon", site_id := "s1", title := "Boat Airdopes 131 Wireless Earbuds",
    model := none, brand := none }

/-- Witness candidate with a similar identifier-free title. -/
def wCandTitleOnly : Candidate :=
  { site := "flipkart", site_id := "f9",
    title := "boAt Airdopes 131 Truly Wireless Earbuds",
    price_cents := 129900, url := "u", image := "i", scraped_at := none,
    rating := none, source := none, model := none, brand := none, mock := false }

theorem c7_stage2_jaccard_and_bounds_witness :
    (scoreCandidate wSrcTitleOnly wCandTitleOnly).score =
      min 1 (stage2Score wSrcTitleOnly.title wCandTitleOnly.title
        + brandBonus wSrcTitleOnly wCandTitleOnly
        + keywordBonus wSrcTitleOnly wCandTitleOnly) ∧
    stage2Score wSrcTitleOnly.title wCandTitleOnly.title =
      1/2 + jaccard (tokenize wSrcTitleOnly.title) (tokenize wCandTitleOnly.title)
        * (9/20) ∧
    1/2 ≤ stage2Score wSrcTitleOnly.title wCandTitleOnly.title ∧
    stage2Score wSrcTitleOnly.title wCandTitleOnly.title ≤ 19/20 ∧
    (∀ s2 c2, 0 ≤ (scoreCandidate s2 c2).score ∧ (scoreCandidate s2 c2).score ≤ 1) :=
  c7_stage2_jaccard_and_bounds wSrcTitleOnly wCandTitleOnly rfl

/-- C1: a candidate that shares an extracted identifier token with the
source (through its model or title) scores exactly 1.0 with
`modelMatch = true`, and is selected as the overall best even when a
different candidate with a strictly lower price (and a score below 1) is
present — price is never consulted. -/
theorem c1_exact_match_dominance (s : SourceDescriptor) (cands : List Candidate)
    (c d : Candidate)
    (htitle : s.title ≠ "")
    (hc : c ∈ cands)
    (hshare : sharesIdentifier (idTextSource s) (idTextCand c) = true)
    (hothers : ∀ x ∈ cands, x ≠ c → (scoreCandidate s x).score < 1)
    (hd : d ∈ cands) (_hdc : d ≠ c) (_hprice : d.price_cents < c.price_cents) :
    (scoreCandidate s c).score = 1 ∧
    (scoreCandidate s c).modelMatch = true ∧
    ∃ r, findBestMatch s cands = Except.ok r ∧
      r.best = some (scoreCandidate s c) ∧ r.score = 1 := by
  have hsc : (scoreCandidate s c).score = 1 ∧ (scoreCandidate s c).modelMatch = true := by
    constructor <;> simp [scoreCandidate, hshare]
  have hne : cands.isEmpty = false := by
    cases cands with
    | nil => exact absurd hc (List.not_mem_nil c)
    | cons a t => rfl
  have hbest : firstMaxBy (fun x : ScoredCandidate => x.score)
      (cands.map (scoreCandidate s)) = some (scoreCandidate s c) := by
    apply firstMaxBy_unique_max
    · exact List.mem_map_of_mem _ hc
    · intro y hy hyne
      rcases List.mem_map.mp hy with ⟨x, hx, hxy⟩
      have hxc : x ≠ c := by
        intro hxceq
        rw [hxceq] at hxy
        exact hyne hxy.symm
      have hlt := hothers x hx hxc
      rw [← hxy]
      calc (scoreCandidate s x).score < 1 := hlt
        _ = (scoreCandidate s c).score := hsc.1.symm
  refine ⟨hsc.1, hsc.2, ?_⟩
  unfold findBestMatch
  rw [if_neg htitle]
  rw [hne]
  refine ⟨_, rfl, ?_, ?_⟩
  · show firstMaxBy (fun x : ScoredCandidate => x.score)
      (cands.map (scoreCandidate s)) = some (scoreCandidate s c)
    exact hbest
  · show ((firstMaxBy (fun x : ScoredCandidate => x.score)
      (cands.map (scoreCandidate s))).map (fun x => x.score)).getD 0 = 1
    rw [hbest]
    simp [hsc.1]

/-- Witness source for exact-match dominance (explicit model). -/
def wSrcModel : SourceDescriptor :=
  { site := "myntra", site_id := "m0", title := "Samsung Galaxy S23 5G 128GB",
    model := some "SM-S911B", brand := none }

/-- Witness candidate sharing the model identifier, at a higher price. -/
def wCandExact : Candidate :=
  { site := "amazon", site_id := "a1",
    title := "Samsung Galaxy S23 5G (128GB) - Phantom Black",
    price_cents := 7499900, url := "ua", image := "ia", scraped_at := none,
    rating := none, source := none, model := some "SM-S911B", brand := none,
    mock := false }

/-- Witness wrong-product candidate, cheaper but with a different model. -/
def wCandWrong : Candidate :=
  { site := "flipkart", site_id := "f1", title := "iPhone 14 Pro Max 512GB",
    price_cents := 5999900, url := "uf", image := "if", scraped_at := none,
    rating := none, source := none, model := some "MQ9T3HN/A", brand := none,
    mock := false }

theorem c1_exact_match_dominance_witness :
    (scoreCandidate wSrcModel wCandExact).score = 1 ∧
    (scoreCandidate wSrcModel wCandExact).modelMatch = true ∧
    ∃ r, findBestMatch wSrcModel [wCandWrong, wCandExact] = Except.ok r ∧
      r.best = some (scoreCandidate wSrcModel wCandExact) ∧ r.score = 1 :=
  c1_exact_match_dominance wSrcModel [wCandWrong, wCandExact] wCandExact wCandWrong
    (by decide)
    (by decide)
    (by rfl)
    (by
      intro x hx hne
      have hx2 : x = wCandWrong ∨ x = wCandExact := by
        simpa using hx
      rcases hx2 with h1 | h1
      · subst h1
        have hf : sharesIdentifier (idTextSource wSrcModel) (idTextCand wCandWrong)
            = false := by rfl
        have hj : jaccard (tokenize wSrcModel.title) (tokenize wCandWrong.title)
            = 0 := by
          unfold jaccard
          have hcard : (tokenize wSrcModel.title ∩ tokenize wCandWrong.title).card
              = 0 := by rfl
          have hu : (tokenize wSrcModel.title ∪ tokenize wCandWrong.title).card
              = 10 := by rfl
          rw [hcard, hu]
          simp
        have hsk : sharedKeywords wSrcModel wCandWrong = [] := by rfl
        have hbb : brandBonus wSrcModel wCandWrong = 0 := by rfl
        simp [scoreCandidate, hf, stage2Score, hj, hbb, keywordBonus, hsk]
        norm_num
      · subst h1
        exact absurd rfl hne)
    (by decide)
    (by decide)
    (by decide)

/-- C8: a call whose source has an empty title fails fast — the route
responds 400 and `findBestMatch` raises InvalidInput, with no scoring
performed — and missing required fields are the only aborting condition:
with `site`, `id` and `title` all present the route never responds with
the 400 rejection nor a 500 for any candidate list. -/
theorem c8_invalid_input_only_abort (site pid title : String)
    (cands : List Candidate) (h : title = "") :
    handleSearchCrosssite site pid title cands = RouteResponse.badRequest ∧
    (∀ cs : List Candidate,
      findBestMatch
        { site := site, site_id := pid, title := title, model := none, brand := none }
        cs = Except.error "InvalidInput: source title is required") ∧
    (∀ s2 p2 t2 : String, ∀ cs : List Candidate, s2 ≠ "" → p2 ≠ "" → t2 ≠ "" →
      handleSearchCrosssite s2 p2 t2 cs ≠ RouteResponse.badRequest ∧
      ∀ msg, handleSearchCrosssite s2 p2 t2 cs ≠ RouteResponse.serverError msg) := by
  refine ⟨?_, ?_, ?_⟩
  · unfold handleSearchCrosssite
    rw [if_pos (Or.inr (Or.inr h))]
  · intro cs
    simp [findBestMatch, h]
  · intro s2 p2 t2 cs hs2 hp2 ht2
    have hfb : ∃ r, findBestMatch
        { site := s2, site_id := p2, title := t2, model := none, brand := none }
        cs = Except.ok r := by
      unfold findBestMatch
      rw [if_neg ht2]
      by_cases h2 : cs.isEmpty = true
      · rw [if_pos h2]
        exact ⟨_, rfl⟩
      · rw [if_neg h2]
        exact ⟨_, rfl⟩
    unfold handleSearchCrosssite
    rw [if_neg (by simp [hs2, hp2, ht2])]
    obtain ⟨r, hr⟩ := hfb
    by_cases h2 : cs.isEmpty = true
    · rw [if_pos h2]
      exact ⟨by simp, fun msg => by simp⟩
    · rw [if_neg h2, hr]
      exact ⟨by simp, fun msg => by simp⟩

theorem c8_invalid_input_only_abort_witness :
    handleSearchCrosssite "amazon" "B000" "" [] = RouteResponse.badRequest ∧
    (∀ cs : List Candidate,
      findBestMatch
        { site := "amazon", site_id := "B000", title := "", model := none, brand := none }
        cs = Except.error "InvalidInput: source title is required") ∧
    (∀ s2 p2 t2 : String, ∀ cs : List Candidate, s2 ≠ "" → p2 ≠ "" → t2 ≠ "" →
      handleSearchCrosssite s2 p2 t2 cs ≠ RouteResponse.badRequest ∧
      ∀ msg, handleSearchCrosssite s2 p2 t2 cs ≠ RouteResponse.serverError msg) :=
  c8_invalid_input_only_abort "amazon" "B000" "" [] rfl

end SmartShopper
